import Mathlib

/-!
Shallow embedding of the browser-sdk sources (spanCollection / requestCollection /
core transport) together with proofs of the specified properties.

Machine numbers are modelled as `Nat`.  The JavaScript arithmetic in
`TraceIdentifier.toString` stays exact on IEEE doubles for every radix up to 36
(all intermediate values are integers below `36 * 2^32 + 2^32 < 2^53`), so the
`Nat` translation is faithful on the radices the host accepts.
-/

/-- One 8-byte trace identifier buffer, as filled by the `TraceIdentifier`
constructor (`private buffer: Uint8Array = new Uint8Array(8)`). -/
structure TraceIdentifier where
  b0 : Nat
  b1 : Nat
  b2 : Nat
  b3 : Nat
  b4 : Nat
  b5 : Nat
  b6 : Nat
  b7 : Nat
deriving DecidableEq

/-- Indexing `this.buffer[i]` for the eight in-range offsets. -/
def TraceIdentifier.byteAt (t : TraceIdentifier) (i : Nat) : Nat :=
  if i = 0 then t.b0
  else if i = 1 then t.b1
  else if i = 2 then t.b2
  else if i = 3 then t.b3
  else if i = 4 then t.b4
  else if i = 5 then t.b5
  else if i = 6 then t.b6
  else if i = 7 then t.b7
  else 0

/-- Source `readInt32(offset)`: `buffer[offset] * 16777216 + (buffer[offset+1] << 16) +
(buffer[offset+2] << 8) + buffer[offset+3]` (big-endian 32-bit read). -/
def TraceIdentifier.readInt32 (t : TraceIdentifier) (offset : Nat) : Nat :=
  t.byteAt offset * 16777216 + t.byteAt (offset + 1) * 65536 +
    t.byteAt (offset + 2) * 256 + t.byteAt (offset + 3)

/-- The 64-bit value held by the buffer: the two 32-bit halves read big-endian. -/
def TraceIdentifier.value (t : TraceIdentifier) : Nat :=
  t.readInt32 0 * 4294967296 + t.readInt32 4

/-- Source constructor: `window.crypto.getRandomValues(this.buffer)` followed by
`this.buffer[0] = this.buffer[0] & 0x7f // force 63-bit`.  The random source is a
parameter giving the byte drawn at each index. -/
def TraceIdentifier.ofRandomBytes (randomBytes : Nat → Nat) : TraceIdentifier :=
  { b0 := randomBytes 0 &&& 0x7f
    b1 := randomBytes 1
    b2 := randomBytes 2
    b3 := randomBytes 3
    b4 := randomBytes 4
    b5 := randomBytes 5
    b6 := randomBytes 6
    b7 := randomBytes 7 }

/-- Decomposition used by the digit loop: peeling one base-`radix` digit from the
pair `(high, low)` works on the combined value `high * 2^32 + low`. -/
theorem digitStep_decomp (radix high low : Nat) :
    high * 4294967296 + low
      = radix * (high / radix * 4294967296) + (high % radix * 4294967296 + low) := by
  conv_lhs => rw [← Nat.div_add_mod high radix]
  ring

/-- The updated `(high, low)` pair of one loop iteration holds the quotient of the
combined value by the radix. -/
theorem digitStep_div (radix high low : Nat) (hr : 0 < radix) :
    high / radix * 4294967296 + (high % radix * 4294967296 + low) / radix
      = (high * 4294967296 + low) / radix := by
  conv_rhs => rw [digitStep_decomp radix high low]
  rw [Nat.mul_add_div hr]

/-- The digit emitted by one loop iteration is the remainder of the combined value
by the radix. -/
theorem digitStep_mod (radix high low : Nat) :
    (high % radix * 4294967296 + low) % radix = (high * 4294967296 + low) % radix := by
  conv_rhs => rw [digitStep_decomp radix high low]
  rw [Nat.mul_add_mod]

/-- Source `toString` loop body, as the list of digit values it accumulates
(least-significant digit emitted first and prepended, hence appended at the tail
of the recursive call):
`mod = (high % radix) * 4294967296 + low; high = floor(high / radix);
low = floor(mod / radix); str = (mod % radix).toString(radix) + str;
if (!high && !low) break`. -/
def TraceIdentifier.toDigits (radix : Nat) (hr : 2 ≤ radix) (high low : Nat) : List Nat :=
  if h : high / radix = 0 ∧ (high % radix * 4294967296 + low) / radix = 0 then
    [(high % radix * 4294967296 + low) % radix]
  else
    TraceIdentifier.toDigits radix hr (high / radix)
        ((high % radix * 4294967296 + low) / radix)
      ++ [(high % radix * 4294967296 + low) % radix]
termination_by high * 4294967296 + low
decreasing_by
  have hd := digitStep_div radix high low (by omega)
  have hpos : 0 < (high * 4294967296 + low) / radix := by
    rw [← hd]
    rcases Nat.eq_zero_or_pos (high / radix) with h1 | h1
    · rcases Nat.eq_zero_or_pos ((high % radix * 4294967296 + low) / radix) with h2 | h2
      · exact absurd ⟨h1, h2⟩ h
      · exact Nat.lt_of_lt_of_le h2 (Nat.le_add_left _ _)
    · have : 0 < high / radix * 4294967296 := by positivity
      exact Nat.lt_of_lt_of_le this (Nat.le_add_right _ _)
  have hvpos : 0 < high * 4294967296 + low :=
    Nat.lt_of_lt_of_le hpos (Nat.div_le_self _ _)
  rw [hd]
  exact Nat.div_lt_self hvpos (by omega)

/-- Value of a most-significant-first digit list in the given radix. -/
def natOfDigits (radix : Nat) (ds : List Nat) : Nat :=
  ds.foldl (fun acc d => acc * radix + d) 0

theorem natOfDigits_append_single (radix : Nat) (ds : List Nat) (d : Nat) :
    natOfDigits radix (ds ++ [d]) = natOfDigits radix ds * radix + d := by
  simp [natOfDigits, List.foldl_append]

/-- Auxiliary strong induction for the digit-loop round trip. -/
theorem natOfDigits_toDigits_aux (radix : Nat) (hr : 2 ≤ radix) :
    ∀ (N high low : Nat), high * 4294967296 + low = N →
      natOfDigits radix (TraceIdentifier.toDigits radix hr high low)
        = high * 4294967296 + low := by
  intro N
  induction N using Nat.strongRecOn with
  | _ N ih =>
    intro high low hN
    rw [TraceIdentifier.toDigits]
    split
    · rename_i h
      have hq : (high * 4294967296 + low) / radix = 0 := by
        rw [← digitStep_div radix high low (by omega), h.1, h.2]
      have hlt : high * 4294967296 + low < radix := by
        by_contra hge
        push_neg at hge
        have h1 : 1 ≤ (high * 4294967296 + low) / radix :=
          (Nat.one_le_div_iff (by omega)).2 hge
        omega
      have hm : (high % radix * 4294967296 + low) % radix = high * 4294967296 + low := by
        rw [digitStep_mod, Nat.mod_eq_of_lt hlt]
      simp [natOfDigits, hm]
    · rename_i h
      have hd := digitStep_div radix high low (by omega)
      have hvpos : 0 < high * 4294967296 + low := by
        rcases Nat.eq_zero_or_pos (high * 4294967296 + low) with h0 | h0
        · exfalso
          have hh : high = 0 ∧ low = 0 := by constructor <;> omega
          apply h
          rw [hh.1, hh.2]
          simp
        · exact h0
      have hrec := ih ((high * 4294967296 + low) / radix)
        (by rw [← hN]; exact Nat.div_lt_self hvpos (by omega))
        (high / radix) ((high % radix * 4294967296 + low) / radix) hd
      rw [natOfDigits_append_single, hrec, digitStep_mod, hd, Nat.div_add_mod']

/-- The digit loop is exact: reading the emitted digits back in the same radix
recovers the combined 64-bit value. -/
theorem natOfDigits_toDigits (radix : Nat) (hr : 2 ≤ radix) (high low : Nat) :
    natOfDigits radix (TraceIdentifier.toDigits radix hr high low)
      = high * 4294967296 + low :=
  natOfDigits_toDigits_aux radix hr (high * 4294967296 + low) high low rfl

/-- Every digit the loop emits is below the radix. -/
theorem toDigits_lt (radix : Nat) (hr : 2 ≤ radix) (high low : Nat) :
    ∀ d ∈ TraceIdentifier.toDigits radix hr high low, d < radix := by
  have key : ∀ (N high low : Nat), high * 4294967296 + low = N →
      ∀ d ∈ TraceIdentifier.toDigits radix hr high low, d < radix := by
    intro N
    induction N using Nat.strongRecOn with
    | _ N ih =>
      intro high low hN d hd
      rw [TraceIdentifier.toDigits] at hd
      split at hd
      · simp at hd
        rw [hd]
        exact Nat.mod_lt _ (by omega)
      · rename_i h
        rw [List.mem_append] at hd
        rcases hd with hd | hd
        · have hstep := digitStep_div radix high low (by omega)
          have hvpos : 0 < high * 4294967296 + low := by
            rcases Nat.eq_zero_or_pos (high * 4294967296 + low) with h0 | h0
            · exfalso
              have hh : high = 0 ∧ low = 0 := by constructor <;> omega
              apply h
              rw [hh.1, hh.2]
              simp
            · exact h0
          exact ih ((high * 4294967296 + low) / radix)
            (by rw [← hN]; exact Nat.div_lt_self hvpos (by omega))
            (high / radix) ((high % radix * 4294967296 + low) / radix) hstep d hd
        · simp at hd
          rw [hd]
          exact Nat.mod_lt _ (by omega)
  exact key (high * 4294967296 + low) high low rfl

/-- The digit loop always emits at least one digit: the body runs once before the
`if (!high && !low) break` exit check. -/
theorem toDigits_ne_nil (radix : Nat) (hr : 2 ≤ radix) (high low : Nat) :
    TraceIdentifier.toDigits radix hr high low ≠ [] := by
  rw [TraceIdentifier.toDigits]
  split
  · simp
  · simp

/-- On the all-zero value the loop emits exactly the digit `0`. -/
theorem toDigits_zero (radix : Nat) (hr : 2 ≤ radix) :
    TraceIdentifier.toDigits radix hr 0 0 = [0] := by
  rw [TraceIdentifier.toDigits]
  simp

/-- Digit character produced by JavaScript `Number.prototype.toString(radix)` for a
single digit value below 36: `0`-`9` then lowercase `a`-`z`. -/
def jsDigitChar (d : Nat) : Char :=
  if d < 10 then Char.ofNat (48 + d) else Char.ofNat (87 + d)

/-- Numeric value of a digit character as read back by a base-`radix` parser
(`0`-`9`, lowercase `a`-`z`). -/
def jsDigitVal (c : Char) : Nat :=
  if c.toNat ≤ 57 then c.toNat - 48 else c.toNat - 87

theorem jsDigitVal_jsDigitChar : ∀ d < 36, jsDigitVal (jsDigitChar d) = d := by
  decide

/-- Source `toString(radix)`: the accumulated digit string. -/
def TraceIdentifier.toString (t : TraceIdentifier) (radix : Nat) (hr : 2 ≤ radix) : String :=
  String.mk ((TraceIdentifier.toDigits radix hr (t.readInt32 0) (t.readInt32 4)).map jsDigitChar)

/-- Reading a digit string back in base `radix`. -/
def parseDigitsBack (radix : Nat) (s : String) : Nat :=
  s.data.foldl (fun acc c => acc * radix + jsDigitVal c) 0

theorem parseDigitsBack_mk_map (radix : Nat) (ds : List Nat) (hds : ∀ d ∈ ds, d < 36) :
    parseDigitsBack radix (String.mk (ds.map jsDigitChar)) = natOfDigits radix ds := by
  unfold parseDigitsBack natOfDigits
  rw [show (String.mk (ds.map jsDigitChar)).data = ds.map jsDigitChar from rfl]
  rw [List.foldl_map]
  apply List.foldl_ext
  intro a b hb
  rw [jsDigitVal_jsDigitChar b (hds b hb)]

/-- C2: for all valid radices r ≥ 2 (the host accepts 2 through 36), parsing the
string returned by `TraceIdentifier.toString(r)` back in base r reproduces the
original 64-bit buffer value (the two 32-bit halves read big-endian), for every
possible 8-byte buffer content. -/
theorem traceIdentifier_toString_roundtrip (t : TraceIdentifier) (radix : Nat)
    (h2 : 2 ≤ radix) (h36 : radix ≤ 36)
    (hb0 : t.b0 < 256) (hb1 : t.b1 < 256) (hb2 : t.b2 < 256) (hb3 : t.b3 < 256)
    (hb4 : t.b4 < 256) (hb5 : t.b5 < 256) (hb6 : t.b6 < 256) (hb7 : t.b7 < 256) :
    parseDigitsBack radix (t.toString radix h2) = t.value := by
  unfold TraceIdentifier.toString TraceIdentifier.value
  rw [parseDigitsBack_mk_map]
  · exact natOfDigits_toDigits radix h2 _ _
  · intro d hd
    exact Nat.lt_of_lt_of_le (toDigits_lt radix h2 _ _ d hd) h36

theorem traceIdentifier_toString_roundtrip_witness :
    2 ≤ 16 ∧ 16 ≤ 36 ∧
      parseDigitsBack 16 ((⟨1, 2, 3, 4, 5, 6, 7, 8⟩ : TraceIdentifier).toString 16 (by norm_num))
        = (⟨1, 2, 3, 4, 5, 6, 7, 8⟩ : TraceIdentifier).value :=
  ⟨by norm_num, by norm_num,
    traceIdentifier_toString_roundtrip ⟨1, 2, 3, 4, 5, 6, 7, 8⟩ 16 (by norm_num) (by norm_num)
      (by norm_num) (by norm_num) (by norm_num) (by norm_num)
      (by norm_num) (by norm_num) (by norm_num) (by norm_num)⟩

/-- C9: every identifier produced by the constructor represents an unsigned value
strictly below 2^63, for every possible output of the random source: the
most-significant bit of byte 0 (the high half) is always cleared. -/
theorem traceIdentifier_generate_lt_2_63 (randomBytes : Nat → Nat)
    (hb : ∀ i, i < 8 → randomBytes i < 256) :
    (TraceIdentifier.ofRandomBytes randomBytes).value < 2 ^ 63
    ∧ (TraceIdentifier.ofRandomBytes randomBytes).b0 < 128 := by
  have h0 : randomBytes 0 &&& 0x7f ≤ 0x7f := Nat.and_le_right
  have h1 := hb 1 (by norm_num)
  have h2 := hb 2 (by norm_num)
  have h3 := hb 3 (by norm_num)
  have h4 := hb 4 (by norm_num)
  have h5 := hb 5 (by norm_num)
  have h6 := hb 6 (by norm_num)
  have h7 := hb 7 (by norm_num)
  have hpow : (2 : Nat) ^ 63 = 9223372036854775808 := by norm_num
  constructor
  · rw [hpow]
    simp only [TraceIdentifier.value, TraceIdentifier.readInt32, TraceIdentifier.byteAt,
      TraceIdentifier.ofRandomBytes]
    norm_num
    omega
  · simp only [TraceIdentifier.ofRandomBytes]
    omega

theorem traceIdentifier_generate_lt_2_63_witness :
    (∀ i, i < 8 → (255 : Nat) < 256)
    ∧ (TraceIdentifier.ofRandomBytes (fun _ => 255)).value < 2 ^ 63
    ∧ (TraceIdentifier.ofRandomBytes (fun _ => 255)).b0 < 128 :=
  ⟨fun i hi => by norm_num,
    (traceIdentifier_generate_lt_2_63 (fun _ => 255) (fun i hi => by norm_num)).1,
    (traceIdentifier_generate_lt_2_63 (fun _ => 255) (fun i hi => by norm_num)).2⟩

/-- C10: for every 8-byte buffer value and every radix in [2, 36],
`TraceIdentifier.toString(radix)` returns a non-empty string; in particular the
all-zero identifier serializes as the single digit "0", because the digit loop body
executes at least once before the both-halves-zero exit check. -/
theorem traceIdentifier_toString_nonempty (t : TraceIdentifier) (radix : Nat)
    (h2 : 2 ≤ radix) (h36 : radix ≤ 36) :
    t.toString radix h2 ≠ ""
    ∧ (TraceIdentifier.mk 0 0 0 0 0 0 0 0).toString radix h2 = "0" := by
  constructor
  · intro hcontra
    apply toDigits_ne_nil radix h2 (t.readInt32 0) (t.readInt32 4)
    have hdata : (TraceIdentifier.toDigits radix h2 (t.readInt32 0)
        (t.readInt32 4)).map jsDigitChar = ([] : List Char) := congrArg String.data hcontra
    exact List.map_eq_nil_iff.mp hdata
  · unfold TraceIdentifier.toString
    have hz0 : (TraceIdentifier.mk 0 0 0 0 0 0 0 0).readInt32 0 = 0 := by
      simp [TraceIdentifier.readInt32, TraceIdentifier.byteAt]
    have hz4 : (TraceIdentifier.mk 0 0 0 0 0 0 0 0).readInt32 4 = 0 := by
      simp [TraceIdentifier.readInt32, TraceIdentifier.byteAt]
    rw [hz0, hz4, toDigits_zero]
    rfl

theorem traceIdentifier_toString_nonempty_witness :
    2 ≤ 10 ∧ 10 ≤ 36 ∧
      ((⟨0, 0, 0, 0, 0, 0, 0, 1⟩ : TraceIdentifier).toString 10 (by norm_num) ≠ ""
        ∧ (TraceIdentifier.mk 0 0 0 0 0 0 0 0).toString 10 (by norm_num) = "0") :=
  ⟨by norm_num, by norm_num,
    traceIdentifier_toString_nonempty ⟨0, 0, 0, 0, 0, 0, 0, 1⟩ 10 (by norm_num) (by norm_num)⟩

/-- Source `sizeInBytes(candidate)`: counts the UTF-8 bytes of the string
(`~-encodeURI(candidate).split(/%..|./).length` — one part per encoded byte). -/
def sizeInBytes (s : String) : Nat :=
  s.utf8ByteSize

/-- Mutable state of one `Batch`: the record buffer, its running byte accumulator,
and the log of `HttpRequest.send(data, size)` calls issued so far (the Transport
is modelled as this log). -/
structure BatchState where
  buffer : List String
  bufferBytesSize : Nat
  sent : List (String × Nat)
deriving DecidableEq

/-- Source `Batch.flush()`: if the buffer is non-empty, hand
`this.buffer.join('\n')` and `this.bufferBytesSize + this.buffer.length - 1` to the
request, then reset the buffer and the byte accumulator. -/
def Batch.flush (b : BatchState) : BatchState :=
  if b.buffer.length ≠ 0 then
    { buffer := []
      bufferBytesSize := 0
      sent := b.sent ++
        [(String.intercalate "\n" b.buffer, b.bufferBytesSize + b.buffer.length - 1)] }
  else b

/-- Source `Batch.willReachedBytesLimitWith(messageBytesSize)`:
`this.bufferBytesSize + messageBytesSize + separatorsBytesSize >= this.bytesLimit`
with `separatorsBytesSize = this.buffer.length`. -/
def Batch.willReachedBytesLimitWith (bytesLimit : Nat) (b : BatchState)
    (messageBytesSize : Nat) : Prop :=
  bytesLimit ≤ b.bufferBytesSize + messageBytesSize + b.buffer.length

instance (bytesLimit : Nat) (b : BatchState) (messageBytesSize : Nat) :
    Decidable (Batch.willReachedBytesLimitWith bytesLimit b messageBytesSize) :=
  inferInstanceAs (Decidable (bytesLimit ≤ b.bufferBytesSize + messageBytesSize + b.buffer.length))

/-- Source `Batch.isFull()`:
`this.buffer.length === this.maxSize || this.bufferBytesSize >= this.bytesLimit`. -/
def Batch.isFull (maxSize bytesLimit : Nat) (b : BatchState) : Prop :=
  b.buffer.length = maxSize ∨ bytesLimit ≤ b.bufferBytesSize

instance (maxSize bytesLimit : Nat) (b : BatchState) :
    Decidable (Batch.isFull maxSize bytesLimit b) :=
  inferInstanceAs (Decidable (b.buffer.length = maxSize ∨ bytesLimit ≤ b.bufferBytesSize))

/-- Source `Batch.push(processedMessage, messageBytesSize)`. -/
def Batch.push (b : BatchState) (processedMessage : String) (messageBytesSize : Nat) :
    BatchState :=
  { b with
    buffer := b.buffer ++ [processedMessage]
    bufferBytesSize := b.bufferBytesSize + messageBytesSize }

/-- Source `Batch.add(message)`.  `process(message)` serializes the record
(JSON.stringify plus the injected context provider, both outside the core); the
model takes the already-serialized record string, whose byte size is
`sizeInBytes` of it, exactly as `process` computes it. -/
def Batch.add (maxSize bytesLimit : Nat) (b : BatchState) (processedMessage : String) :
    BatchState :=
  let messageBytesSize := sizeInBytes processedMessage
  let afterLimitCheck :=
    if Batch.willReachedBytesLimitWith bytesLimit b messageBytesSize then Batch.flush b
    else b
  let afterPush := Batch.push afterLimitCheck processedMessage messageBytesSize
  if Batch.isFull maxSize bytesLimit afterPush then Batch.flush afterPush else afterPush

/-- One externally-driven operation on a batch: an `add(message)` call or a
`flush()` call (timer tick, visibility change or unload). -/
inductive BatchOp where
  | add (message : String)
  | flush
deriving DecidableEq

def batchStep (maxSize bytesLimit : Nat) (b : BatchState) : BatchOp → BatchState
  | BatchOp.add m => Batch.add maxSize bytesLimit b m
  | BatchOp.flush => Batch.flush b

/-- State of a batch after a sequence of operations, starting from the
constructor's state (`buffer = []`, `bufferBytesSize = 0`, nothing sent). -/
def Batch.runOps (maxSize bytesLimit : Nat) (ops : List BatchOp) : BatchState :=
  ops.foldl (batchStep maxSize bytesLimit) { buffer := [], bufferBytesSize := 0, sent := [] }

theorem Batch.flush_cases (b : BatchState) :
    ((Batch.flush b).buffer = [] ∧ (Batch.flush b).bufferBytesSize = 0) ∨ Batch.flush b = b := by
  unfold Batch.flush
  split
  · exact Or.inl ⟨rfl, rfl⟩
  · exact Or.inr rfl

/-- Any predicate preserved by `add` and by `flush` holds after any operation
sequence, provided it holds initially. -/
theorem Batch.foldl_inv (maxSize bytesLimit : Nat) (P : BatchState → Prop)
    (hflush : ∀ b, P b → P (Batch.flush b))
    (hadd : ∀ b m, P b → P (Batch.add maxSize bytesLimit b m)) :
    ∀ (ops : List BatchOp) (b : BatchState), P b →
      P (ops.foldl (batchStep maxSize bytesLimit) b) := by
  intro ops
  induction ops with
  | nil => intro b hb; exact hb
  | cons op rest ih =>
    intro b hb
    cases op with
    | add m => exact ih _ (hadd b m hb)
    | flush => exact ih _ (hflush b hb)

theorem Batch.flush_push_bufferBytesSize (b : BatchState) (m : String) (s : Nat) :
    (Batch.flush (Batch.push b m s)).bufferBytesSize = 0 := by
  unfold Batch.flush Batch.push
  simp

theorem Batch.flush_push_buffer (b : BatchState) (m : String) (s : Nat) :
    (Batch.flush (Batch.push b m s)).buffer = [] := by
  unfold Batch.flush Batch.push
  simp

theorem Batch.push_bufferBytesSize (b : BatchState) (m : String) (s : Nat) :
    (Batch.push b m s).bufferBytesSize = b.bufferBytesSize + s := rfl

theorem Batch.push_buffer_length (b : BatchState) (m : String) (s : Nat) :
    (Batch.push b m s).buffer.length = b.buffer.length + 1 := by
  unfold Batch.push
  simp

theorem Batch.flush_buffer_length_le (b : BatchState) :
    (Batch.flush b).buffer.length ≤ b.buffer.length := by
  rcases Batch.flush_cases b with ⟨h1, _⟩ | h
  · rw [h1]
    simp
  · rw [h]

/-- After any `add` call the byte accumulator is at or below the byte ceiling:
either the trailing `isFull` check just flushed (accumulator 0), or it did not
reach the ceiling. -/
theorem Batch.add_bufferBytesSize_le (maxSize bytesLimit : Nat) (b : BatchState) (m : String) :
    (Batch.add maxSize bytesLimit b m).bufferBytesSize ≤ bytesLimit := by
  simp only [Batch.add]
  by_cases h1 : Batch.willReachedBytesLimitWith bytesLimit b (sizeInBytes m)
  · rw [if_pos h1]
    by_cases h2 : Batch.isFull maxSize bytesLimit (Batch.push (Batch.flush b) m (sizeInBytes m))
    · rw [if_pos h2, Batch.flush_push_bufferBytesSize]
      omega
    · rw [if_neg h2]
      have hb : ¬ bytesLimit ≤ (Batch.push (Batch.flush b) m (sizeInBytes m)).bufferBytesSize :=
        fun hle => h2 (Or.inr hle)
      omega
  · rw [if_neg h1]
    by_cases h2 : Batch.isFull maxSize bytesLimit (Batch.push b m (sizeInBytes m))
    · rw [if_pos h2, Batch.flush_push_bufferBytesSize]
      omega
    · rw [if_neg h2]
      have hb : ¬ bytesLimit ≤ (Batch.push b m (sizeInBytes m)).bufferBytesSize :=
        fun hle => h2 (Or.inr hle)
      omega

/-- After any `add` call from a state whose buffer is below the count ceiling, the
buffer stays below the count ceiling (the trailing `isFull` check flushes exactly
when the count reaches it). -/
theorem Batch.add_buffer_length_lt (maxSize bytesLimit : Nat) (hmax : 1 ≤ maxSize)
    (b : BatchState) (hb : b.buffer.length < maxSize) (m : String) :
    (Batch.add maxSize bytesLimit b m).buffer.length < maxSize := by
  simp only [Batch.add]
  by_cases h1 : Batch.willReachedBytesLimitWith bytesLimit b (sizeInBytes m)
  · rw [if_pos h1]
    by_cases h2 : Batch.isFull maxSize bytesLimit (Batch.push (Batch.flush b) m (sizeInBytes m))
    · rw [if_pos h2, Batch.flush_push_buffer]
      simpa using hmax
    · rw [if_neg h2]
      have hne : (Batch.push (Batch.flush b) m (sizeInBytes m)).buffer.length ≠ maxSize :=
        fun heq => h2 (Or.inl heq)
      have hle := Batch.flush_buffer_length_le b
      rw [Batch.push_buffer_length] at hne ⊢
      omega
  · rw [if_neg h1]
    by_cases h2 : Batch.isFull maxSize bytesLimit (Batch.push b m (sizeInBytes m))
    · rw [if_pos h2, Batch.flush_push_buffer]
      simpa using hmax
    · rw [if_neg h2]
      have hne : (Batch.push b m (sizeInBytes m)).buffer.length ≠ maxSize :=
        fun heq => h2 (Or.inl heq)
      rw [Batch.push_buffer_length] at hne ⊢
      omega

theorem Batch.runOps_buffer_length_lt (maxSize bytesLimit : Nat) (hmax : 1 ≤ maxSize)
    (ops : List BatchOp) :
    (Batch.runOps maxSize bytesLimit ops).buffer.length < maxSize := by
  apply Batch.foldl_inv maxSize bytesLimit (fun st => st.buffer.length < maxSize)
  · intro st hst
    exact Nat.lt_of_le_of_lt (Batch.flush_buffer_length_le st) hst
  · intro st m hst
    exact Batch.add_buffer_length_lt maxSize bytesLimit hmax st hst m
  · simpa using hmax

/-- Reachable states keep the byte accumulator equal to the sum of the byte sizes
of the buffered records. -/
theorem Batch.runOps_bytes_eq_sum (maxSize bytesLimit : Nat) (ops : List BatchOp) :
    (Batch.runOps maxSize bytesLimit ops).bufferBytesSize
      = ((Batch.runOps maxSize bytesLimit ops).buffer.map sizeInBytes).sum := by
  apply Batch.foldl_inv maxSize bytesLimit
    (fun st => st.bufferBytesSize = (st.buffer.map sizeInBytes).sum)
  · intro st hst
    rcases Batch.flush_cases st with ⟨h1, h2⟩ | h
    · rw [h1, h2]
      simp
    · rw [h]
      exact hst
  · intro st m hst
    simp only [Batch.add]
    have hpush : ∀ st2 : BatchState, st2.bufferBytesSize = (st2.buffer.map sizeInBytes).sum →
        (Batch.push st2 m (sizeInBytes m)).bufferBytesSize
          = ((Batch.push st2 m (sizeInBytes m)).buffer.map sizeInBytes).sum := by
      intro st2 hst2
      unfold Batch.push
      simp [hst2]
    by_cases h1 : Batch.willReachedBytesLimitWith bytesLimit st (sizeInBytes m)
    · rw [if_pos h1]
      have hflush : (Batch.flush st).bufferBytesSize
          = ((Batch.flush st).buffer.map sizeInBytes).sum := by
        rcases Batch.flush_cases st with ⟨hh1, hh2⟩ | hh
        · rw [hh1, hh2]
          simp
        · rw [hh]
          exact hst
      by_cases h2 : Batch.isFull maxSize bytesLimit (Batch.push (Batch.flush st) m (sizeInBytes m))
      · rw [if_pos h2, Batch.flush_push_bufferBytesSize, Batch.flush_push_buffer]
        simp
      · rw [if_neg h2]
        exact hpush (Batch.flush st) hflush
    · rw [if_neg h1]
      by_cases h2 : Batch.isFull maxSize bytesLimit (Batch.push st m (sizeInBytes m))
      · rw [if_pos h2, Batch.flush_push_bufferBytesSize, Batch.flush_push_buffer]
        simp
      · rw [if_neg h2]
        exact hpush st hst
  · rfl

/-- C4: after every `add(message)` call returns, the batch satisfies
`bufferedCount ≤ maxSize` and `bufferedBytes ≤ bytesLimit`, for every prior
sequence of add and flush operations and every message byte size (including a
single message larger than `bytesLimit`). -/
theorem batch_add_postcondition (maxSize bytesLimit : Nat) (hmax : 1 ≤ maxSize)
    (ops : List BatchOp) (message : String) :
    (Batch.add maxSize bytesLimit (Batch.runOps maxSize bytesLimit ops) message).buffer.length
        ≤ maxSize
    ∧ (Batch.add maxSize bytesLimit (Batch.runOps maxSize bytesLimit ops)
        message).bufferBytesSize ≤ bytesLimit :=
  ⟨Nat.le_of_lt (Batch.add_buffer_length_lt maxSize bytesLimit hmax _
      (Batch.runOps_buffer_length_lt maxSize bytesLimit hmax ops) message),
    Batch.add_bufferBytesSize_le maxSize bytesLimit _ message⟩

theorem batch_add_postcondition_witness :
    1 ≤ 10
    ∧ ((Batch.add 10 100 (Batch.runOps 10 100 [])
          (String.mk (List.replicate 101 'a'))).buffer.length ≤ 10
        ∧ (Batch.add 10 100 (Batch.runOps 10 100 [])
            (String.mk (List.replicate 101 'a'))).bufferBytesSize ≤ 100) :=
  ⟨by norm_num,
    batch_add_postcondition 10 100 (by norm_num) [] (String.mk (List.replicate 101 'a'))⟩

/-- The 60-byte record of the C5 scenario. -/
def sixtyByteRecord : String :=
  String.mk (List.replicate 60 'b')

/-- C5: with `bytesLimit = 100` and `maxCount = 10`, adding nine 5-byte records
triggers no flush (45 buffered bytes); then adding one 60-byte record flushes the
existing buffer before the new record is appended: exactly one delivered batch of
the original nine records, and the buffer holds only the 60-byte record. -/
theorem batch_concrete_scenario :
    (Batch.runOps 10 100 (List.replicate 9 (BatchOp.add "aaaaa"))).sent = []
    ∧ (Batch.runOps 10 100 (List.replicate 9 (BatchOp.add "aaaaa"))).bufferBytesSize = 45
    ∧ (Batch.runOps 10 100 (List.replicate 9 (BatchOp.add "aaaaa"))).buffer
        = List.replicate 9 "aaaaa"
    ∧ Batch.add 10 100 (Batch.runOps 10 100 (List.replicate 9 (BatchOp.add "aaaaa")))
          sixtyByteRecord
        = { buffer := [sixtyByteRecord]
            bufferBytesSize := 60
            sent := [(String.intercalate "\n" (List.replicate 9 "aaaaa"), 53)] } := by
  decide

/-- C6: for every reachable buffer state, `flush()` on a non-empty buffer makes
exactly one Transport send whose payload is the buffered records joined by a
newline in enqueue order and whose reported byte size is the sum of the record
byte sizes plus one separator byte per joined boundary, then resets the buffer;
`flush()` on an empty buffer makes no send and leaves the state unchanged. -/
theorem batch_flush_spec (maxSize bytesLimit : Nat) (ops : List BatchOp) :
    ((Batch.runOps maxSize bytesLimit ops).buffer ≠ [] →
      Batch.flush (Batch.runOps maxSize bytesLimit ops)
        = { buffer := []
            bufferBytesSize := 0
            sent := (Batch.runOps maxSize bytesLimit ops).sent ++
              [(String.intercalate "\n" (Batch.runOps maxSize bytesLimit ops).buffer,
                ((Batch.runOps maxSize bytesLimit ops).buffer.map sizeInBytes).sum
                  + (Batch.runOps maxSize bytesLimit ops).buffer.length - 1)] })
    ∧ ((Batch.runOps maxSize bytesLimit ops).buffer = [] →
        Batch.flush (Batch.runOps maxSize bytesLimit ops)
          = Batch.runOps maxSize bytesLimit ops) := by
  have hsum := Batch.runOps_bytes_eq_sum maxSize bytesLimit ops
  constructor
  · intro h
    have hcond : (Batch.runOps maxSize bytesLimit ops).buffer.length ≠ 0 :=
      fun hlen => h (List.eq_nil_of_length_eq_zero hlen)
    unfold Batch.flush
    rw [if_pos hcond, hsum]
  · intro h
    have hcond : ¬ (Batch.runOps maxSize bytesLimit ops).buffer.length ≠ 0 := by
      rw [h]
      simp
    unfold Batch.flush
    rw [if_neg hcond]

theorem batch_flush_spec_witness :
    Batch.flush (Batch.runOps 10 100 [BatchOp.add "aaaaa"])
      = { buffer := [], bufferBytesSize := 0, sent := [("aaaaa", 5)] }
    ∧ Batch.flush (Batch.runOps 10 100 []) = Batch.runOps 10 100 [] := by
  constructor
  · have h := (batch_flush_spec 10 100 [BatchOp.add "aaaaa"]).1 (by decide)
    rw [h]
    decide
  · exact (batch_flush_spec 10 100 []).2 rfl

/-- Source constant `XMLHttpRequest.DONE`. -/
def xmlHttpRequestDone : Nat :=
  4

/-- A completion signal observed for one instrumented XHR send: a
`readystatechange` callback (with the current `readyState`) or the `loadend`
event listener. -/
inductive XhrSignal where
  | readyStateChange (readyState : Nat)
  | loadend
deriving DecidableEq

/-- Per-send closure state of `trackXhr`: the `hasBeenReported` latch and the
number of complete events published on the observable for this `requestId`. -/
structure XhrLatchState where
  hasBeenReported : Bool
  publishedCount : Nat
deriving DecidableEq

/-- Source `reportXhr`: `if (hasBeenReported) return; hasBeenReported = true;
requestCompleteObservable.notify({...})`. -/
def reportXhr (s : XhrLatchState) : XhrLatchState :=
  if s.hasBeenReported then s
  else { hasBeenReported := true, publishedCount := s.publishedCount + 1 }

/-- Handling of one signal: the wrapped `onreadystatechange` calls `reportXhr`
only when `readyState === XMLHttpRequest.DONE`; the `loadend` listener calls it
unconditionally. -/
def xhrSignalStep (s : XhrLatchState) : XhrSignal → XhrLatchState
  | XhrSignal.readyStateChange rs => if rs = xmlHttpRequestDone then reportXhr s else s
  | XhrSignal.loadend => reportXhr s

/-- The latch state after an arbitrary sequence of completion signals, starting
from the state set up by the wrapped `send` (`hasBeenReported = false`, nothing
published). -/
def runXhrSignals (sigs : List XhrSignal) : XhrLatchState :=
  sigs.foldl xhrSignalStep { hasBeenReported := false, publishedCount := 0 }

theorem xhrLatch_invariant (sigs : List XhrSignal) :
    ∀ s : XhrLatchState,
      ((s.hasBeenReported = false ∧ s.publishedCount = 0)
        ∨ (s.hasBeenReported = true ∧ s.publishedCount = 1)) →
      (((sigs.foldl xhrSignalStep s).hasBeenReported = false
          ∧ (sigs.foldl xhrSignalStep s).publishedCount = 0)
        ∨ ((sigs.foldl xhrSignalStep s).hasBeenReported = true
          ∧ (sigs.foldl xhrSignalStep s).publishedCount = 1)) := by
  induction sigs with
  | nil => intro s hs; exact hs
  | cons sig rest ih =>
    intro s hs
    apply ih
    cases sig with
    | readyStateChange rs =>
      by_cases hrs : rs = xmlHttpRequestDone
      · rcases hs with ⟨h1, h2⟩ | ⟨h1, h2⟩
        · right
          simp [xhrSignalStep, reportXhr, hrs, h1, h2]
        · right
          simp [xhrSignalStep, reportXhr, hrs, h1, h2]
      · simpa [xhrSignalStep, hrs] using hs
    | loadend =>
      rcases hs with ⟨h1, h2⟩ | ⟨h1, h2⟩
      · right
        simp [xhrSignalStep, reportXhr, h1, h2]
      · right
        simp [xhrSignalStep, reportXhr, h1, h2]

theorem xhrLatch_reported_stays (sigs : List XhrSignal) :
    ∀ s : XhrLatchState, s.hasBeenReported = true →
      (sigs.foldl xhrSignalStep s).hasBeenReported = true := by
  induction sigs with
  | nil => intro s hs; exact hs
  | cons sig rest ih =>
    intro s hs
    apply ih
    cases sig with
    | readyStateChange rs =>
      by_cases hrs : rs = xmlHttpRequestDone
      · simp [xhrSignalStep, reportXhr, hrs, hs]
      · simp [xhrSignalStep, hrs, hs]
    | loadend => simp [xhrSignalStep, reportXhr, hs]

theorem xhrLatch_loadend_reports (sigs : List XhrSignal) :
    ∀ s : XhrLatchState, XhrSignal.loadend ∈ sigs →
      (sigs.foldl xhrSignalStep s).hasBeenReported = true := by
  induction sigs with
  | nil => intro s hs; cases hs
  | cons sig rest ih =>
    intro s hs
    rcases List.mem_cons.mp hs with heq | hmem
    · rw [← heq, List.foldl_cons]
      apply xhrLatch_reported_stays rest
      show (reportXhr s).hasBeenReported = true
      unfold reportXhr
      split
      · rename_i hrep
        exact hrep
      · rfl
    · rw [List.foldl_cons]
      exact ih _ hmem

/-- C1: for every instrumented XHR send, if both completion signals fire — the
readiness-state observer reaching DONE and the terminal `loadend` listener — in
any order and any number of times, exactly one complete event is published for
that call's `requestId`. -/
theorem trackXhr_both_signals_single_complete (sigs : List XhrSignal)
    (hdone : XhrSignal.readyStateChange xmlHttpRequestDone ∈ sigs)
    (hloadend : XhrSignal.loadend ∈ sigs) :
    (runXhrSignals sigs).publishedCount = 1 := by
  have hinv := xhrLatch_invariant sigs { hasBeenReported := false, publishedCount := 0 }
    (Or.inl ⟨rfl, rfl⟩)
  have hrep := xhrLatch_loadend_reports sigs
    { hasBeenReported := false, publishedCount := 0 } hloadend
  unfold runXhrSignals
  rcases hinv with ⟨h1, _⟩ | ⟨_, h2⟩
  · rw [hrep] at h1
    cases h1
  · exact h2

theorem trackXhr_both_signals_single_complete_witness :
    XhrSignal.readyStateChange xmlHttpRequestDone
        ∈ [XhrSignal.readyStateChange xmlHttpRequestDone, XhrSignal.loadend]
    ∧ XhrSignal.loadend
        ∈ [XhrSignal.readyStateChange xmlHttpRequestDone, XhrSignal.loadend]
    ∧ (runXhrSignals
        [XhrSignal.readyStateChange xmlHttpRequestDone, XhrSignal.loadend]).publishedCount = 1 :=
  ⟨by decide, by decide,
    trackXhr_both_signals_single_complete
      [XhrSignal.readyStateChange xmlHttpRequestDone, XhrSignal.loadend]
      (by decide) (by decide)⟩

/-- Module-level state of `requestCollection`: the
`requestObservablesSingleton` variable (an unassigned `let` is `undefined`,
hence falsy; an assigned observable pair is truthy — modelled as `Option` of a
pair identity), and how many times `trackXhr` and `trackFetch` have wrapped the
call surfaces (each wrapping saves the original un-wrapped surface once). -/
structure RequestCollectionState where
  requestObservablesSingleton : Option Nat
  xhrWrapCount : Nat
  fetchWrapCount : Nat
  nextPairId : Nat
deriving DecidableEq

/-- The module-load state: singleton unassigned, no wrapping installed. -/
def initialCollectionState : RequestCollectionState :=
  { requestObservablesSingleton := none, xhrWrapCount := 0, fetchWrapCount := 0, nextPairId := 0 }

/-- Source `startRequestCollection()`: on a falsy singleton, create the
observable pair, run `trackXhr` (always wraps) and `trackFetch` (wraps only when
`window.fetch` exists); always return the singleton pair.  `hasFetch` tells
whether `window.fetch` is present. -/
def startRequestCollection (hasFetch : Bool) (s : RequestCollectionState) :
    RequestCollectionState × Nat :=
  match s.requestObservablesSingleton with
  | some pair => (s, pair)
  | none =>
      ({ requestObservablesSingleton := some s.nextPairId
         xhrWrapCount := s.xhrWrapCount + 1
         fetchWrapCount := if hasFetch then s.fetchWrapCount + 1 else s.fetchWrapCount
         nextPairId := s.nextPairId + 1 }, s.nextPairId)

theorem startRequestCollection_some (hasFetch : Bool) (s : RequestCollectionState)
    (pair : Nat) (h : s.requestObservablesSingleton = some pair) :
    startRequestCollection hasFetch s = (s, pair) := by
  unfold startRequestCollection
  rw [h]

/-- C7: `startRequestCollection` is idempotent: after the first call, any number
of later calls leave the module state unchanged (in particular the un-wrapped
call surfaces are saved exactly once) and every later call returns the same
observable pair as the first call. -/
theorem startRequestCollection_idempotent (hasFetch : Bool) (n : Nat) :
    (fun s => (startRequestCollection hasFetch s).1)^[n]
        (startRequestCollection hasFetch initialCollectionState).1
      = (startRequestCollection hasFetch initialCollectionState).1
    ∧ (startRequestCollection hasFetch
        (startRequestCollection hasFetch initialCollectionState).1).2
      = (startRequestCollection hasFetch initialCollectionState).2
    ∧ (startRequestCollection hasFetch initialCollectionState).1.xhrWrapCount = 1
    ∧ (startRequestCollection hasFetch initialCollectionState).1.fetchWrapCount
      = (if hasFetch then 1 else 0) := by
  have hfirst : startRequestCollection hasFetch initialCollectionState
      = ({ requestObservablesSingleton := some 0
           xhrWrapCount := 1
           fetchWrapCount := if hasFetch then 1 else 0
           nextPairId := 1 }, 0) := by
    unfold startRequestCollection initialCollectionState
    simp
  have hagain := startRequestCollection_some hasFetch
    (startRequestCollection hasFetch initialCollectionState).1 0 (by rw [hfirst])
  refine ⟨?_, ?_, ?_, ?_⟩
  · induction n with
    | zero => rfl
    | succ k ihk =>
      rw [Function.iterate_succ_apply', ihk, hagain]
  · rw [hagain, hfirst]
  · rw [hfirst]
  · rw [hfirst]

/-- A JavaScript `Error` value as a promise rejection reason: name, message and
stack contents. -/
structure JsError where
  errorName : String
  errorMessage : String
  errorStack : String
deriving DecidableEq

/-- A stack trace computed from a failure object. -/
structure StackTraceRecord where
  traceName : String
  traceMessage : String
  traceBody : String
deriving DecidableEq

/-- Modelled from the spec: `computeStackTrace` (tracekit) is not under `src/`;
per the spec it extracts a normalized trace from the failure object. -/
def computeStackTrace (e : JsError) : StackTraceRecord :=
  { traceName := e.errorName, traceMessage := e.errorMessage, traceBody := e.errorStack }

/-- Modelled from the spec: `toStackTraceString` (errorCollection) is not under
`src/`; per the spec it is the "Stack-trace formatter (consumed): given a failure
object, returns a normalized, human-readable stack description" used as the body
text for network-level failures. -/
def toStackTraceString (st : StackTraceRecord) : String :=
  st.traceName ++ ": " ++ st.traceMessage ++ "\n" ++ st.traceBody

/-- Source `RequestType` enum. -/
inductive RequestType where
  | xhr
  | fetch
deriving DecidableEq

/-- A fulfilled `Response` as consumed by `reportFetch`: its status, its `type`,
and the result of `response.clone().text()` (which may fail, modelled as
`Except`, with the failure rendered by the `catch` branch). -/
structure FetchResponse where
  status : Nat
  responseType : String
  textResult : Except String String

/-- Settlement of the promise returned by the wrapped fetch: fulfilled with a
response, or rejected with an error. -/
inductive FetchOutcome where
  | fulfilled (response : FetchResponse)
  | rejected (error : JsError)

/-- The fields of a `RequestCompleteEvent` published on the complete observable. -/
structure RequestCompleteEvent where
  requestId : Nat
  eventType : RequestType
  method : String
  url : String
  status : Nat
  response : String
  responseType : Option String
  startTime : Nat
  duration : Nat

/-- Source `reportFetch(response)`: the rejection branch matches
`'stack' in response || response instanceof Error` and reports `status: 0` with
`toStackTraceString(computeStackTrace(response))` as the response text; the
fulfillment branch reports the response's status, type and best-effort body. -/
def reportFetch (requestId startTime duration : Nat) (method url : String) :
    FetchOutcome → RequestCompleteEvent
  | FetchOutcome.rejected e =>
      { requestId := requestId
        eventType := RequestType.fetch
        method := method
        url := url
        status := 0
        response := toStackTraceString (computeStackTrace e)
        responseType := none
        startTime := startTime
        duration := duration }
  | FetchOutcome.fulfilled r =>
      { requestId := requestId
        eventType := RequestType.fetch
        method := method
        url := url
        status := r.status
        response :=
          match r.textResult with
          | Except.ok t => t
          | Except.error err => "Unable to retrieve response: " ++ err
        responseType := some r.responseType
        startTime := startTime
        duration := duration }

/-- Complete events published for one instrumented fetch call:
`responsePromise.then(monitor(reportFetch), monitor(reportFetch))` runs
`reportFetch` exactly once with the settlement value (a promise settles once, and
exactly one of the two registered handlers fires). -/
def fetchCompleteEvents (requestId startTime duration : Nat) (method url : String)
    (outcome : FetchOutcome) : List RequestCompleteEvent :=
  [reportFetch requestId startTime duration method url outcome]

/-- C8: every instrumented fetch call whose returned promise rejects with an
error publishes exactly one complete event for that `requestId`, with `status =
0` and a non-empty response field containing the formatted stack-trace
description of the failure. -/
theorem trackFetch_rejection_single_complete (requestId startTime duration : Nat)
    (method url : String) (e : JsError) :
    fetchCompleteEvents requestId startTime duration method url (FetchOutcome.rejected e)
      = [{ requestId := requestId
           eventType := RequestType.fetch
           method := method
           url := url
           status := 0
           response := toStackTraceString (computeStackTrace e)
           responseType := none
           startTime := startTime
           duration := duration }]
    ∧ toStackTraceString (computeStackTrace e) ≠ "" := by
  constructor
  · rfl
  · intro hcontra
    have hlen := congrArg String.length hcontra
    simp only [toStackTraceString, computeStackTrace, String.length_append] at hlen
    have h2 : (": " : String).length = 2 := rfl
    have h3 : ("\n" : String).length = 1 := rfl
    have h0 : ("" : String).length = 0 := rfl
    omega

/-- The five `x-datadog-*` headers `traceXhr` sets, in source order, with the
identifier serialized in base 10. -/
def datadogHeaders (traceIdDecimal : String) : List (String × String) :=
  [("x-datadog-trace-id", traceIdDecimal),
   ("x-datadog-parent-id", traceIdDecimal),
   ("x-datadog-origin", "rum"),
   ("x-datadog-sampling-priority", "1"),
   ("x-datadog-sampled", "1")]

/-- Page environment seen by `traceXhr`: the global binding `origin` (that is,
`window.origin` — the instrumenting page's own origin), `window.location.origin`,
and whether `ddtrace` is present with an active scope (in which case
`traceAndInject` returns the upstream identifier without running the inject
callback at all). -/
structure PageEnv where
  windowOrigin : String
  locationOrigin : String
  tracerActive : Bool

/-- Source `traceXhr` header injection.  `xhrDestinationOrigin` is the origin of
the XHR's destination URL; the source's guard
`if (origin !== window.location.origin) { return }` never consults it (the bare
`origin` resolves to the global `window.origin`, not to the request's target),
so the parameter does not occur in the body. -/
def traceXhrHeaders (env : PageEnv) (xhrDestinationOrigin : String) (t : TraceIdentifier) :
    List (String × String) :=
  if env.tracerActive then []
  else if env.windowOrigin ≠ env.locationOrigin then []
  else datadogHeaders (t.toString 10 (by norm_num))

/-- C3 fails on the code: on a normal page (global `origin` equal to
`window.location.origin`, no active upstream tracer) an XHR to the cross-origin
destination `https://evil.example` still receives all five `x-datadog-*`
headers, because the guard compares the page's own origin with itself and never
inspects the destination. -/
theorem traceXhr_crossOrigin_headers_attached :
    ("https://evil.example" : String) ≠ "https://app.example"
    ∧ (traceXhrHeaders
          { windowOrigin := "https://app.example"
            locationOrigin := "https://app.example"
            tracerActive := false }
          "https://evil.example" (TraceIdentifier.mk 0 0 0 0 0 0 0 0)).map Prod.fst
        = ["x-datadog-trace-id", "x-datadog-parent-id", "x-datadog-origin",
           "x-datadog-sampling-priority", "x-datadog-sampled"] := by
  constructor
  · decide
  · simp [traceXhrHeaders, datadogHeaders]

/-- C4 as universally stated fails at the degenerate count ceiling `maxSize = 0`:
one `add` of a small record leaves one record buffered, because the trailing
`isFull` check `this.buffer.length === this.maxSize` compares with equality and
the length is already 1 right after the push. -/
theorem batch_add_postcondition_counterexample :
    ¬ ((Batch.add 0 100 (Batch.runOps 0 100 []) "aaaaa").buffer.length ≤ 0) := by
  decide
